import Mathlib

/-!
Verification of the 3D network-visualization engine
(`NetworkVisualization` component: entity-registry sync, connection batch
rebuild, interaction controller, selection highlighter, teardown).

The engine's state-bearing operations are shallowly embedded below:
the JS `Map` held in `deviceObjectsRef` becomes an association list with
JS `Map.set` semantics; resource disposal becomes an explicit event trace;
numeric fields become `ℚ` (and `ℝ` where the source compares against
`Math.PI / 2`).
-/

namespace NetVis

/-! ## JS `Map` model

`deviceObjectsRef.current : Map<string, DeviceMeshBundle>` and the gsap
per-(object, property) tween-override behaviour are both "last write wins"
keyed stores.  `mapSet` models JS `Map.prototype.set`: an existing key keeps
its insertion position and gets the new value; a fresh key is appended. -/

def mapSet {K V : Type} [DecidableEq K] (m : List (K × V)) (k : K) (v : V) :
    List (K × V) :=
  if m.any (fun p => decide (p.1 = k)) then
    m.map (fun p => if p.1 = k then (k, v) else p)
  else
    m ++ [(k, v)]

/-- JS `Map.prototype.get` (`undefined` becomes `none`). -/
def mapGet {K V : Type} [DecidableEq K] (m : List (K × V)) (k : K) : Option V :=
  (m.find? (fun p => decide (p.1 = k))).map Prod.snd

def mapKeys {K V : Type} (m : List (K × V)) : List K := m.map Prod.fst

/-- Folding `m.set (key x) (val x)` over a list: the shape of both the
device-registry population loop and the gsap opacity-tween loop. -/
def jsMapInsertAll {K V A : Type} [DecidableEq K] (key : A → K) (val : A → V)
    (init : List (K × V)) (l : List A) : List (K × V) :=
  l.foldl (fun m x => mapSet m (key x) (val x)) init

/-! ## Data model (from `types/network.ts` and the component props) -/

structure Device where
  id : String
  name : String
  status : String
  posX : ℚ
  posY : ℚ
  posZ : ℚ
  workload : ℚ
deriving DecidableEq

/-- The `DeviceMeshBundle` contents produced for one device by the sync
effect: mesh position, `userData` (deviceId, workload), the pool-material
key `device.status ?? "default"`, and the label text. -/
structure Bundle where
  deviceId : String
  posX : ℚ
  posY : ℚ
  posZ : ℚ
  statusKey : String
  workload : ℚ
  labelText : String
deriving DecidableEq

def mkBundle (d : Device) : Bundle :=
  { deviceId := d.id
    posX := d.posX
    posY := d.posY
    posZ := d.posZ
    statusKey := d.status
    workload := d.workload
    labelText := d.name }

/-- The sync effect: the previous registry is cleared
(`deviceObjectsRef.current.clear()`), then every device in list order is
inserted with `deviceObjectsRef.current.set(device.id, bundle)`. -/
def syncRegistry (prev : List (String × Bundle)) (devices : List Device) :
    List (String × Bundle) :=
  jsMapInsertAll Device.id mkBundle (prev.take 0) devices

/-! ## Resource-disposal event traces (teardown cleanup and sync removal)

Resources are identified by numeric ids; the event constructors mirror the
concrete three.js object kinds the source disposes: shared
`SphereGeometry` / `BufferGeometry` (`disposeGeom`), pool
`MeshPhongMaterial` (`disposePhongMat`), per-label `SpriteMaterial`
(`disposeSpriteMat`) and `CanvasTexture` (`disposeTex`), the batch
`LineBasicMaterial` (`disposeLineMat`), listener detachment, animation-loop
cancellation (`renderer.setAnimationLoop(null)`), renderer disposal, and
batch installation (`world.add(lines)`). -/

inductive Ev where
  | removeListener (name : String)
  | cancelLoop
  | disposeGeom (g : Nat)
  | disposePhongMat (m : Nat)
  | disposeSpriteMat (m : Nat)
  | disposeTex (t : Nat)
  | disposeLineMat (m : Nat)
  | disposeRenderer
  | addBatch (g m : Nat)
deriving DecidableEq

/-- Occurrence count (used instead of `List.count` to keep everything on
`DecidableEq`). -/
def countIn {α : Type} [DecidableEq α] (a : α) (l : List α) : Nat :=
  (l.filter (fun x => decide (x = a))).length

def isDisposeEv : Ev → Bool
  | Ev.removeListener _ => false
  | Ev.cancelLoop => false
  | Ev.addBatch _ _ => false
  | _ => true

/-- A live renderable bundle as the teardown traversal sees it: the body
mesh references the shared pool geometry and a pool `MeshPhongMaterial`;
the label sprite owns its texture and `SpriteMaterial`. -/
structure RBundle where
  deviceId : String
  phongMat : Nat
  tex : Nat
  spriteMat : Nat
deriving DecidableEq

structure EngineState where
  sharedGeo : Nat
  poolMats : List Nat
  bundles : List RBundle
  connBatch : Option (Nat × Nat)
deriving DecidableEq

/-- The control prefix of the cleanup: the five listener detachments
(lines in source order: resize, mousedown, mousemove, mouseup, wheel)
followed by `renderer.setAnimationLoop(null)`. -/
def teardownCtrl : List Ev :=
  [Ev.removeListener "resize", Ev.removeListener "mousedown",
   Ev.removeListener "mousemove", Ev.removeListener "mouseup",
   Ev.removeListener "wheel", Ev.cancelLoop]

/-- The disposal suffix of the cleanup: traverse `world` (each body mesh:
geometry then material; each label sprite: texture then material), then
dispose the connection batch refs, the shared geometry, every pool
material, and the renderer. -/
def teardownDispose (s : EngineState) : List Ev :=
  s.bundles.flatMap (fun b =>
      [Ev.disposeGeom s.sharedGeo, Ev.disposePhongMat b.phongMat,
       Ev.disposeTex b.tex, Ev.disposeSpriteMat b.spriteMat])
  ++ (match s.connBatch with
      | some gm => [Ev.disposeGeom gm.1, Ev.disposeLineMat gm.2]
      | none => [])
  ++ [Ev.disposeGeom s.sharedGeo]
  ++ s.poolMats.map Ev.disposePhongMat
  ++ [Ev.disposeRenderer]

/-- The `useLayoutEffect` cleanup: all listener detachment and the
animation-loop stop happen first, then the disposals. -/
def teardownTrace (s : EngineState) : List Ev :=
  teardownCtrl ++ teardownDispose s

/-- The removal half of the sync effect: for every previously registered
bundle, remove mesh and label from the world and dispose only the label's
texture and `SpriteMaterial` (the body's pool geometry/material are left
alone). -/
def syncDisposeTrace (prev : List RBundle) : List Ev :=
  prev.flatMap (fun b => [Ev.disposeTex b.tex, Ev.disposeSpriteMat b.spriteMat])

/-! ## Connection batch builder -/

structure Conn where
  fromId : String
  toId : String
  strength : ℚ
  latency : ℚ
deriving DecidableEq

/-- Embeds `THREE.MathUtils.clamp(value, min, max)`. -/
def clampQ (value lo hi : ℚ) : ℚ := max lo (min hi value)

/-- Embeds `THREE.MathUtils.lerp(x, y, t)`. -/
def lerpQ (x y t : ℚ) : ℚ := (1 - t) * x + t * y

/-- The edge colour handed to `Color.setHSL`: fixed hue `0.5`, full
saturation, lightness `lerp(0.3, 0.7, clamp(strength, 0, 1))`. -/
def connColorHSL (c : Conn) : ℚ × ℚ × ℚ :=
  (1 / 2, 1, lerpQ (3 / 10) (7 / 10) (clampQ c.strength 0 1))

/-- One step of the `connections.map(...)` resolution: look up both
endpoint devices with `devices.find(...)`; a dangling endpoint yields
`null`. -/
def resolveConn (devices : List Device) (c : Conn) :
    Option (Conn × Device × Device) :=
  match devices.find? (fun d => decide (d.id = c.fromId)),
        devices.find? (fun d => decide (d.id = c.toId)) with
  | some f, some t => some (c, f, t)
  | _, _ => none

/-- Embeds `connections.map(resolve).filter(x => !!x)`. -/
def validConnections (connections : List Conn) (devices : List Device) :
    List (Conn × Device × Device) :=
  (connections.map (resolveConn devices)).reduceOption

/-- The `positions` Float32Array: six floats per valid connection
(`from.xyz` then `to.xyz`). -/
def connPositions (valid : List (Conn × Device × Device)) : List ℚ :=
  valid.flatMap (fun x =>
    [x.2.1.posX, x.2.1.posY, x.2.1.posZ, x.2.2.posX, x.2.2.posY, x.2.2.posZ])

/-- The per-vertex colour buffer: both endpoints of an edge receive the
same strength-derived colour. -/
def connColors (valid : List (Conn × Device × Device)) : List (ℚ × ℚ × ℚ) :=
  valid.flatMap (fun x => [connColorHSL x.1, connColorHSL x.1])

/-- The batch (re)build: dispose the previously installed geometry and
material (if a batch is installed), then install a fresh
`LineSegments(geom, mat)` only when at least one valid connection remains.
Returns the new installed batch (geometry id, material id) and the event
trace. -/
def rebuildConn (prevBatch : Option (Nat × Nat)) (connections : List Conn)
    (devices : List Device) (freshGeo freshMat : Nat) :
    Option (Nat × Nat) × List Ev :=
  let disposePrev : List Ev :=
    match prevBatch with
    | some gm => [Ev.disposeGeom gm.1, Ev.disposeLineMat gm.2]
    | none => []
  let valid := validConnections connections devices
  if 0 < valid.length then
    (some (freshGeo, freshMat), disposePrev ++ [Ev.addBatch freshGeo freshMat])
  else
    (none, disposePrev)

/-! ## Selection highlighter

The highlight effect iterates the registry; per bundle it tweens
`mesh.scale` (a per-mesh object) and `mesh.material` opacity — but
`mesh.material` is the *shared* per-status pool material.  gsap's
override rule makes the last tween scheduled on the same (object,
property) pair win, so the final opacity of a status material is decided
by the last registry bundle holding that status.  A highlight bundle is
`(deviceId, statusKey)`. -/

def highlightScales (bundles : List (String × String)) (selected : Option String) :
    List ℚ :=
  bundles.map (fun b => if selected = some b.1 then 3 / 2 else 1)

def highlightMatOpacity (bundles : List (String × String))
    (selected : Option String) : List (String × ℚ) :=
  jsMapInsertAll Prod.snd (fun b => if selected = some b.1 then 1 else 3 / 5)
    [] bundles

/-- Pool materials are created with `opacity: 0.8`. -/
def poolMatInitialOpacity : ℚ := 4 / 5

/-! ## Interaction controller: click picking -/

structure Hit where
  deviceId : String
  dist : ℚ
deriving DecidableEq

/-- Embeds `raycaster.intersectObjects(meshes, false)`: results sorted ascending
by distance (stable, as `Array.prototype.sort` with the ascending
comparator is). The geometric ray test itself is abstracted as the input
list of hits. -/
def intersectDevices (hits : List Hit) : List Hit :=
  hits.mergeSort (fun a b => decide (a.dist ≤ b.dist))

/-- Embeds `handleClick`: a drag farther than 5 px resets the accumulated
distance and does nothing; otherwise the nearest intersected body's
device id is reported (`intersects[0]`).  Returns the new
`dragState.dragDistance` and the id passed to `onDeviceSelect` (if any). -/
def handleClick (dragDistance : ℚ) (hits : List Hit) : ℚ × Option String :=
  if 5 < dragDistance then
    (0, none)
  else
    (dragDistance, (intersectDevices hits).head?.map Hit.deviceId)

/-! ## Interaction controller: pitch (rotation.x) -/

/-- The pointermove clamp:
`Math.max(-Math.PI / 2, Math.min(Math.PI / 2, world.rotation.x))`. -/
noncomputable def clampPitch (x : ℝ) : ℝ :=
  max (-(Real.pi / 2)) (min (Real.pi / 2) x)

/-- Embeds `onMouseMove`: `world.rotation.x += dy * 0.005` followed by the clamp. -/
noncomputable def moveRotX (rotX dy : ℝ) : ℝ :=
  clampPitch (rotX + dy * (5 / 1000))

/-- The per-frame inertia step while not dragging:
`world.rotation.x += dragState.velocityY` — with no clamp. -/
def inertiaRotX (rotX velY : ℝ) : ℝ := rotX + velY

/-! ## Interaction controller: wheel zoom -/

def MIN_DISTANCE : ℚ := 5

def MAX_DISTANCE : ℚ := 120

/-- Embeds `onWheel`: `clamp(dist * (1 + dir * 0.1), MIN_DISTANCE, MAX_DISTANCE)`
where `dir = Math.sign(e.deltaY)`. -/
def onWheelDist (dist dir : ℚ) : ℚ :=
  clampQ (dist * (1 + dir * (1 / 10))) MIN_DISTANCE MAX_DISTANCE

/-- Repeated zoom-out events (`deltaY > 0`, so `dir = 1`). -/
def zoomOutIter (d : ℚ) : Nat → ℚ
  | 0 => d
  | n + 1 => onWheelDist (zoomOutIter d n) 1

/-- Repeated zoom-in events (`deltaY < 0`, so `dir = -1`). -/
def zoomInIter (d : ℚ) : Nat → ℚ
  | 0 => d
  | n + 1 => onWheelDist (zoomInIter d n) (-1)

/-! ## Malformed-device handling (JS field-access semantics) -/

structure Pos3 where
  x : ℚ
  y : ℚ
  z : ℚ
deriving DecidableEq

structure MetricsJS where
  cpu : ℚ
  memory : ℚ
  workload : ℚ
deriving DecidableEq

/-- A device as it may actually arrive at runtime: `position` and
`metrics` (and `status`) may be absent. -/
structure DeviceJS where
  id : String
  name : String
  status : Option String
  position : Option Pos3
  metrics : Option MetricsJS
deriving DecidableEq

/-- Creating one mesh bundle: `mesh.position.set(device.position.x, …)`
has no optional chaining, so an absent `position` raises a `TypeError`;
`device.metrics?.workload ?? 0` defaults to `0`; the material key is
`device.status ?? "default"`. -/
def mkMeshData (d : DeviceJS) : Except String Bundle :=
  match d.position with
  | none => Except.error "TypeError: cannot read properties of undefined"
  | some p =>
    Except.ok
      { deviceId := d.id
        posX := p.x
        posY := p.y
        posZ := p.z
        statusKey := d.status.getD "default"
        workload := (d.metrics.map MetricsJS.workload).getD 0
        labelText := d.name }

/-- The sync effect under JS runtime semantics: clear the registry, then
create each device's bundle in order; the first `TypeError` aborts the
effect. -/
def syncJS (prev : List (String × Bundle)) (devices : List DeviceJS) :
    Except String (List (String × Bundle)) :=
  devices.foldlM (fun m d => (mkMeshData d).map (fun b => mapSet m d.id b))
    (prev.take 0)

/-! ## Concrete fixtures used to evaluate the theorems -/

/-- One healthy device bundle, pool material `10`, shared sphere geometry
`0`, label texture `20` and label material `21`, no batch installed. -/
def engineOneDevice : EngineState :=
  { sharedGeo := 0
    poolMats := [10]
    bundles := [{ deviceId := "d1", phongMat := 10, tex := 20, spriteMat := 21 }]
    connBatch := none }

def devA : Device :=
  { id := "d1", name := "D1", status := "healthy"
    posX := 0, posY := 0, posZ := 0, workload := 0 }

def devB : Device :=
  { id := "d2", name := "D2", status := "critical"
    posX := 5, posY := 0, posZ := 0, workload := 0 }

/-- An edge with both endpoints present. -/
def connGood : Conn :=
  { fromId := "d1", toId := "d2", strength := 1 / 2, latency := 1 }

/-- An edge whose target id is absent from the device set. -/
def connDangling : Conn :=
  { fromId := "d1", toId := "ghost", strength := 1, latency := 1 }

/-- A runtime device with `metrics` present but `position` absent. -/
def deviceNoPos : DeviceJS :=
  { id := "d1", name := "D1", status := some "healthy"
    position := none, metrics := some { cpu := 0, memory := 0, workload := 0 } }

/-- A runtime device with `position` present but `metrics` absent. -/
def deviceNoMetrics : DeviceJS :=
  { id := "d2", name := "D2", status := none
    position := some { x := 1, y := 2, z := 3 }, metrics := none }

/-! ## Lemmas about the JS `Map` model -/

theorem any_key_iff {K V : Type} [DecidableEq K] (m : List (K × V)) (k : K) :
    (m.any (fun p => decide (p.1 = k)) = true) ↔ k ∈ mapKeys m := by
  simp only [List.any_eq_true, decide_eq_true_eq, mapKeys, List.mem_map]

theorem mapKeys_mapSet {K V : Type} [DecidableEq K] (m : List (K × V)) (k : K)
    (v : V) :
    mapKeys (mapSet m k v) =
      if k ∈ mapKeys m then mapKeys m else mapKeys m ++ [k] := by
  unfold mapSet
  by_cases h : m.any (fun p => decide (p.1 = k)) = true
  · rw [if_pos h, if_pos ((any_key_iff m k).mp h)]
    unfold mapKeys
    rw [List.map_map]
    apply List.map_congr_left
    intro p _
    by_cases hp : p.1 = k
    · simp [hp, Function.comp]
    · simp [hp, Function.comp]
  · rw [if_neg h, if_neg (fun hk => h ((any_key_iff m k).mpr hk))]
    unfold mapKeys
    simp

theorem length_mapSet {K V : Type} [DecidableEq K] (m : List (K × V)) (k : K)
    (v : V) :
    (mapSet m k v).length =
      if k ∈ mapKeys m then m.length else m.length + 1 := by
  have h := mapKeys_mapSet m k v
  by_cases hk : k ∈ mapKeys m
  · rw [if_pos hk] at h
    rw [if_pos hk]
    have : (mapKeys (mapSet m k v)).length = (mapKeys m).length := by rw [h]
    simpa [mapKeys] using this
  · rw [if_neg hk] at h
    rw [if_neg hk]
    have : (mapKeys (mapSet m k v)).length = (mapKeys m).length + 1 := by
      rw [h]; simp
    simpa [mapKeys] using this

theorem mem_mapKeys_mapSet {K V : Type} [DecidableEq K] (m : List (K × V))
    (k x : K) (v : V) :
    x ∈ mapKeys (mapSet m k v) ↔ x ∈ mapKeys m ∨ x = k := by
  rw [mapKeys_mapSet]
  by_cases hk : k ∈ mapKeys m
  · rw [if_pos hk]
    constructor
    · exact Or.inl
    · rintro (h | rfl)
      · exact h
      · exact hk
  · rw [if_neg hk]
    simp

theorem nodup_mapKeys_mapSet {K V : Type} [DecidableEq K] (m : List (K × V))
    (k : K) (v : V) (h : (mapKeys m).Nodup) : (mapKeys (mapSet m k v)).Nodup := by
  rw [mapKeys_mapSet]
  by_cases hk : k ∈ mapKeys m
  · rw [if_pos hk]; exact h
  · rw [if_neg hk]
    simpa [List.nodup_append] using ⟨h, hk⟩

theorem mapGet_mapSet_self {K V : Type} [DecidableEq K] (m : List (K × V))
    (k : K) (v : V) : mapGet (mapSet m k v) k = some v := by
  unfold mapSet
  by_cases h : m.any (fun p => decide (p.1 = k)) = true
  · rw [if_pos h]
    induction m with
    | nil => simp at h
    | cons p m ih =>
      by_cases hp : p.1 = k
      · unfold mapGet
        simp [hp, List.find?_cons]
      · have hm : m.any (fun p => decide (p.1 = k)) = true := by
          simpa [List.any_cons, hp] using h
        unfold mapGet at ih ⊢
        simpa [hp, List.find?_cons] using ih hm
  · rw [if_neg h]
    have hnone : m.find? (fun p => decide (p.1 = k)) = none := by
      rw [List.find?_eq_none]
      intro p hp
      simp only [decide_eq_true_eq]
      intro hpk
      exact h (List.any_eq_true.mpr ⟨p, hp, by simpa using hpk⟩)
    unfold mapGet
    rw [List.find?_append, hnone]
    simp [List.find?_cons]

theorem find?_mapSetFun_ne {K V : Type} [DecidableEq K] (m : List (K × V))
    (k k' : K) (v : V) (hkk : k' ≠ k) :
    (m.map (fun p => if p.1 = k then (k, v) else p)).find?
        (fun p => decide (p.1 = k'))
      = m.find? (fun p => decide (p.1 = k')) := by
  induction m with
  | nil => rfl
  | cons p m ih =>
    by_cases hp : p.1 = k
    · have h1 : ¬ ((k : K) = k') := fun hh => hkk hh.symm
      have h2 : ¬ (p.1 = k') := by rw [hp]; exact h1
      simp only [List.map_cons, if_pos hp, List.find?_cons, decide_eq_false h1,
        decide_eq_false h2]
      exact ih
    · simp only [List.map_cons, if_neg hp, List.find?_cons]
      cases hd : decide (p.1 = k') with
      | true => rfl
      | false => exact ih

theorem mapGet_mapSet_ne {K V : Type} [DecidableEq K] (m : List (K × V))
    (k k' : K) (v : V) (hkk : k' ≠ k) :
    mapGet (mapSet m k v) k' = mapGet m k' := by
  unfold mapSet mapGet
  by_cases h : m.any (fun p => decide (p.1 = k)) = true
  · rw [if_pos h, find?_mapSetFun_ne m k k' v hkk]
  · rw [if_neg h, List.find?_append]
    have hone : List.find? (fun p => decide (p.1 = k')) [(k, v)] = none := by
      have h1 : ¬ ((k : K) = k') := fun hh => hkk hh.symm
      simp [List.find?_cons, decide_eq_false h1]
    rw [hone]
    simp

/-- Last-write-wins for a fold of `Map.set` calls: the value finally stored
under `k` comes from the last element of `l` whose key is `k` (or from
`init` when no element of `l` has key `k`). -/
theorem mapGet_jsMapInsertAll {K V A : Type} [DecidableEq K] (key : A → K)
    (val : A → V) (init : List (K × V)) (l : List A) (k : K) :
    mapGet (jsMapInsertAll key val init l) k =
      match (l.filter (fun x => decide (key x = k))).getLast? with
      | some x => some (val x)
      | none => mapGet init k := by
  induction l generalizing init with
  | nil => simp [jsMapInsertAll]
  | cons a l ih =>
    have step : jsMapInsertAll key val init (a :: l)
        = jsMapInsertAll key val (mapSet init (key a) (val a)) l := rfl
    rw [step, ih]
    by_cases hfl : l.filter (fun x => decide (key x = k)) = []
    · rw [hfl]
      by_cases ha : key a = k
      · have : (a :: l).filter (fun x => decide (key x = k)) = [a] := by
          simp [List.filter_cons, ha, hfl]
        rw [this]
        simp only [List.getLast?_singleton]
        subst ha
        exact mapGet_mapSet_self init (key a) (val a)
      · have : (a :: l).filter (fun x => decide (key x = k))
            = l.filter (fun x => decide (key x = k)) := by
          simp [List.filter_cons, ha]
        rw [this, hfl]
        exact mapGet_mapSet_ne init (key a) k (val a) (fun hh => ha hh.symm)
    · have hcons : (a :: l).filter (fun x => decide (key x = k))
          = (if key a = k then [a] else []) ++ l.filter (fun x => decide (key x = k)) := by
        by_cases ha : key a = k
        · simp [List.filter_cons, ha]
        · simp [List.filter_cons, ha]
      rw [hcons, List.getLast?_append_of_ne_nil _ hfl]
      cases hg : (List.filter (fun x => decide (key x = k)) l).getLast? with
      | none =>
        exact absurd (List.getLast?_eq_none_iff.mp hg) hfl
      | some x => rfl

theorem length_jsMapInsertAll {K V A : Type} [DecidableEq K] (key : A → K)
    (val : A → V) (init : List (K × V)) (l : List A)
    (h : (mapKeys init).Nodup) :
    (jsMapInsertAll key val init l).length =
      ((mapKeys init ++ l.map key).dedup).length := by
  induction l generalizing init with
  | nil =>
    simp only [jsMapInsertAll, List.foldl_nil, List.map_nil, List.append_nil]
    rw [List.Nodup.dedup h]
    simp [mapKeys]
  | cons a l ih =>
    have step : jsMapInsertAll key val init (a :: l)
        = jsMapInsertAll key val (mapSet init (key a) (val a)) l := rfl
    rw [step, ih _ (nodup_mapKeys_mapSet init (key a) (val a) h)]
    have hset : ∀ x, x ∈ mapKeys (mapSet init (key a) (val a)) ++ l.map key
        ↔ x ∈ mapKeys init ++ (a :: l).map key := by
      intro x
      simp only [List.mem_append, mem_mapKeys_mapSet, List.map_cons,
        List.mem_cons]
      tauto
    have hdedup : (mapKeys (mapSet init (key a) (val a)) ++ l.map key).dedup.length
        = (mapKeys init ++ (a :: l).map key).dedup.length := by
      rw [← List.card_toFinset, ← List.card_toFinset]
      congr 1
      apply Finset.ext
      intro x
      simp only [List.mem_toFinset]
      exact hset x
    rw [hdedup]

/-- C1: For every synced device list, the registry afterwards has
exactly one live bundle per distinct device id in the list — independent of
the previous registry contents — and the bundle stored under an id is built
from the *last* occurrence of that id in the list (duplicate ids collapse,
last occurrence wins, without error). -/
theorem c1_sync_distinct_ids_last_wins (prev : List (String × Bundle))
    (devices : List Device) :
    (syncRegistry prev devices).length = (devices.map Device.id).dedup.length
    ∧ ∀ i : String,
        mapGet (syncRegistry prev devices) i =
          ((devices.filter (fun d => decide (d.id = i))).getLast?).map mkBundle := by
  constructor
  · have h := length_jsMapInsertAll Device.id mkBundle (prev.take 0) devices
      (by simp [mapKeys])
    simpa [syncRegistry, mapKeys] using h
  · intro i
    have h := mapGet_jsMapInsertAll Device.id mkBundle (prev.take 0) devices i
    rw [syncRegistry, h]
    cases hlast : (devices.filter (fun d => decide (d.id = i))).getLast? with
    | none => simp [mapGet]
    | some d => simp

/-! ## Counting lemmas for event traces -/

theorem countIn_nil {α : Type} [DecidableEq α] (a : α) : countIn a ([] : List α) = 0 :=
  rfl

theorem countIn_append {α : Type} [DecidableEq α] (a : α) (l₁ l₂ : List α) :
    countIn a (l₁ ++ l₂) = countIn a l₁ + countIn a l₂ := by
  simp [countIn, List.filter_append]

theorem countIn_cons {α : Type} [DecidableEq α] (a x : α) (l : List α) :
    countIn a (x :: l) = (if x = a then 1 else 0) + countIn a l := by
  by_cases h : x = a
  · simp [countIn, List.filter_cons, h, Nat.add_comm]
  · simp [countIn, List.filter_cons, h]

theorem countIn_pos_iff {α : Type} [DecidableEq α] (a : α) (l : List α) :
    0 < countIn a l ↔ a ∈ l := by
  induction l with
  | nil => simp [countIn]
  | cons x l ih =>
    rw [countIn_cons]
    by_cases h : x = a
    · subst h
      simp
    · have : ¬ (a = x) := fun hh => h hh.symm
      simp [h, this, ih]

theorem countIn_eq_zero_of_not_mem {α : Type} [DecidableEq α] {a : α}
    {l : List α} (h : a ∉ l) : countIn a l = 0 := by
  by_contra hne
  exact h ((countIn_pos_iff a l).mp (Nat.pos_of_ne_zero hne))

theorem countIn_eq_one_of_nodup {α : Type} [DecidableEq α] {l : List α}
    (h : l.Nodup) {a : α} (ha : a ∈ l) : countIn a l = 1 := by
  induction l with
  | nil => simp at ha
  | cons x l ih =>
    rw [countIn_cons]
    rcases List.mem_cons.mp ha with rfl | hmem
    · rw [if_pos rfl]
      have hxl : a ∉ l := (List.nodup_cons.mp h).1
      rw [countIn_eq_zero_of_not_mem hxl]
    · have hx : x ≠ a := by
        intro hxa
        exact (List.nodup_cons.mp h).1 (hxa ▸ hmem)
      rw [if_neg hx, Nat.zero_add]
      exact ih (List.nodup_cons.mp h).2 hmem

/-! ## C2: teardown ordering and disposal counts -/

theorem countIn_teardown_bundleChunk_geo (g gs : Nat) (b : RBundle) :
    countIn (Ev.disposeGeom g)
      [Ev.disposeGeom gs, Ev.disposePhongMat b.phongMat, Ev.disposeTex b.tex,
       Ev.disposeSpriteMat b.spriteMat] = if gs = g then 1 else 0 := by
  by_cases h : gs = g
  · simp [countIn, List.filter_cons, h]
  · simp [countIn, List.filter_cons, h]

theorem countIn_geo_flatMapChunks (g gs : Nat) (bs : List RBundle) :
    countIn (Ev.disposeGeom g)
      (bs.flatMap (fun b =>
        [Ev.disposeGeom gs, Ev.disposePhongMat b.phongMat,
         Ev.disposeTex b.tex, Ev.disposeSpriteMat b.spriteMat]))
      = if gs = g then bs.length else 0 := by
  induction bs with
  | nil => by_cases h : gs = g <;> simp [countIn]
  | cons b bs ih =>
    rw [List.flatMap_cons, countIn_append, ih,
      countIn_teardown_bundleChunk_geo g gs b]
    by_cases h : gs = g
    · simp [h, Nat.add_comm]
    · simp [h]

theorem mem_teardown_of_mem_flat {s : EngineState} {e : Ev}
    (h : e ∈ s.bundles.flatMap (fun b =>
      [Ev.disposeGeom s.sharedGeo, Ev.disposePhongMat b.phongMat,
       Ev.disposeTex b.tex, Ev.disposeSpriteMat b.spriteMat])) :
    e ∈ teardownTrace s := by
  simp only [teardownTrace, teardownDispose, List.mem_append]
  exact Or.inr (Or.inl (Or.inl (Or.inl (Or.inl h))))

theorem mem_teardown_of_mem_conn {s : EngineState} {e : Ev}
    (h : e ∈ (match s.connBatch with
      | some gm => [Ev.disposeGeom gm.1, Ev.disposeLineMat gm.2]
      | none => ([] : List Ev))) :
    e ∈ teardownTrace s := by
  simp only [teardownTrace, teardownDispose, List.mem_append]
  exact Or.inr (Or.inl (Or.inl (Or.inl (Or.inr h))))

theorem mem_teardown_sharedGeo (s : EngineState) :
    Ev.disposeGeom s.sharedGeo ∈ teardownTrace s := by
  simp only [teardownTrace, teardownDispose, List.mem_append]
  exact Or.inr (Or.inl (Or.inl (Or.inr (List.mem_singleton.mpr rfl))))

theorem mem_teardown_poolMat {s : EngineState} {m : Nat} (hm : m ∈ s.poolMats) :
    Ev.disposePhongMat m ∈ teardownTrace s := by
  simp only [teardownTrace, teardownDispose, List.mem_append]
  exact Or.inr (Or.inl (Or.inr (List.mem_map.mpr ⟨m, hm, rfl⟩)))

/-- C2 counterexample: In the one-device engine state, teardown
disposes the shared pool sphere geometry twice — once during the scene
traversal (the device body references it) and once directly — so teardown
does *not* dispose every geometry exactly once as claimed. -/
theorem c2_counterexample_shared_geometry_disposed_twice :
    countIn (Ev.disposeGeom 0) (teardownTrace engineOneDevice) = 2
      ∧ (2 : Nat) ≠ 1 := by
  constructor
  · rfl
  · decide

/-- C2 (amended): Teardown detaches all five input listeners and stops
the animation loop *before* any disposal (the first six trace events are
exactly those control events, and everything after them is disposal), and
every tracked resource — each bundle's label texture and material, each
bundle's pool material, the shared geometry, the pool materials, and the
connection batch if installed — is disposed *at least* once, so no tracked
resource survives teardown.  However, the shared pool geometry is disposed
once per referencing body plus once directly (`bundles.length + 1` times
when no batch is installed), not exactly once. -/
theorem c2_teardown_order_and_disposal (s : EngineState) :
    (teardownTrace s).take 6 =
      [Ev.removeListener "resize", Ev.removeListener "mousedown",
       Ev.removeListener "mousemove", Ev.removeListener "mouseup",
       Ev.removeListener "wheel", Ev.cancelLoop]
    ∧ (∀ e ∈ (teardownTrace s).take 6, isDisposeEv e = false)
    ∧ (∀ e ∈ (teardownTrace s).drop 6, isDisposeEv e = true)
    ∧ (∀ b ∈ s.bundles,
        0 < countIn (Ev.disposeTex b.tex) (teardownTrace s)
        ∧ 0 < countIn (Ev.disposeSpriteMat b.spriteMat) (teardownTrace s)
        ∧ 0 < countIn (Ev.disposePhongMat b.phongMat) (teardownTrace s))
    ∧ 0 < countIn (Ev.disposeGeom s.sharedGeo) (teardownTrace s)
    ∧ (∀ m ∈ s.poolMats, 0 < countIn (Ev.disposePhongMat m) (teardownTrace s))
    ∧ (∀ g lm, s.connBatch = some (g, lm) →
        0 < countIn (Ev.disposeGeom g) (teardownTrace s)
        ∧ 0 < countIn (Ev.disposeLineMat lm) (teardownTrace s))
    ∧ (s.connBatch = none →
        countIn (Ev.disposeGeom s.sharedGeo) (teardownTrace s)
          = s.bundles.length + 1) := by
  have htake : (teardownTrace s).take 6 = teardownCtrl := by
    rw [teardownTrace]
    exact List.take_left' rfl
  have hdrop : (teardownTrace s).drop 6 = teardownDispose s := by
    rw [teardownTrace]
    exact List.drop_left' rfl
  refine ⟨?_, ?_, ?_, ?_, ?_, ?_, ?_, ?_⟩
  · rw [htake]
    rfl
  · intro e he
    rw [htake] at he
    fin_cases he <;> rfl
  · intro e he
    rw [hdrop, teardownDispose] at he
    rcases List.mem_append.mp he with h4 | hren
    · rcases List.mem_append.mp h4 with h3 | hmats
      · rcases List.mem_append.mp h3 with h2 | hdg
        · rcases List.mem_append.mp h2 with hflat | hconn
          · rcases List.mem_flatMap.mp hflat with ⟨b, _, hb⟩
            simp only [List.mem_cons, List.not_mem_nil, or_false] at hb
            rcases hb with rfl | rfl | rfl | rfl <;> rfl
          · cases hcb : s.connBatch with
            | none => rw [hcb] at hconn; simp at hconn
            | some gm =>
              rw [hcb] at hconn
              simp only [List.mem_cons, List.not_mem_nil, or_false] at hconn
              rcases hconn with rfl | rfl <;> rfl
        · rw [List.mem_singleton] at hdg
          subst hdg
          rfl
      · rcases List.mem_map.mp hmats with ⟨m, _, rfl⟩
        rfl
    · rw [List.mem_singleton] at hren
      subst hren
      rfl
  · intro b hb
    refine ⟨?_, ?_, ?_⟩
    · exact (countIn_pos_iff _ _).mpr
        (mem_teardown_of_mem_flat (List.mem_flatMap.mpr ⟨b, hb, by simp⟩))
    · exact (countIn_pos_iff _ _).mpr
        (mem_teardown_of_mem_flat (List.mem_flatMap.mpr ⟨b, hb, by simp⟩))
    · exact (countIn_pos_iff _ _).mpr
        (mem_teardown_of_mem_flat (List.mem_flatMap.mpr ⟨b, hb, by simp⟩))
  · exact (countIn_pos_iff _ _).mpr (mem_teardown_sharedGeo s)
  · intro m hm
    exact (countIn_pos_iff _ _).mpr (mem_teardown_poolMat hm)
  · intro g lm hconn
    constructor
    · exact (countIn_pos_iff _ _).mpr
        (mem_teardown_of_mem_conn (by rw [hconn]; simp))
    · exact (countIn_pos_iff _ _).mpr
        (mem_teardown_of_mem_conn (by rw [hconn]; simp))
  · intro hconn
    have hflat := countIn_geo_flatMapChunks s.sharedGeo s.sharedGeo s.bundles
    rw [if_pos rfl] at hflat
    have h1 : countIn (Ev.disposeGeom s.sharedGeo) teardownCtrl = 0 := by
      simp [teardownCtrl, countIn, List.filter_cons]
    have h3 : countIn (Ev.disposeGeom s.sharedGeo)
        [Ev.disposeGeom s.sharedGeo] = 1 := by
      simp [countIn, List.filter_cons]
    have h4 : countIn (Ev.disposeGeom s.sharedGeo)
        (s.poolMats.map Ev.disposePhongMat) = 0 := by
      apply countIn_eq_zero_of_not_mem
      intro hmem
      rcases List.mem_map.mp hmem with ⟨m, _, hme⟩
      exact Ev.noConfusion hme
    have h5 : countIn (Ev.disposeGeom s.sharedGeo) [Ev.disposeRenderer] = 0 := by
      simp [countIn, List.filter_cons]
    simp only [teardownTrace, teardownDispose, hconn, countIn_append,
      List.append_nil, countIn_nil]
    rw [hflat, h1, h3, h4, h5]
    omega

/-! ## C5: the sync removal trace never touches pool resources -/

theorem syncTrace_tex_count (prev : List RBundle) (t : Nat) :
    countIn (Ev.disposeTex t) (syncDisposeTrace prev)
      = countIn t (prev.map RBundle.tex) := by
  induction prev with
  | nil => rfl
  | cons b prev ih =>
    have hchunk : countIn (Ev.disposeTex t)
        [Ev.disposeTex b.tex, Ev.disposeSpriteMat b.spriteMat]
        = if b.tex = t then 1 else 0 := by
      by_cases h : b.tex = t
      · simp [countIn, List.filter_cons, h]
      · simp [countIn, List.filter_cons, h]
    rw [syncDisposeTrace, List.flatMap_cons, countIn_append, hchunk]
    rw [syncDisposeTrace] at ih
    rw [ih, List.map_cons, countIn_cons]

theorem syncTrace_spriteMat_count (prev : List RBundle) (t : Nat) :
    countIn (Ev.disposeSpriteMat t) (syncDisposeTrace prev)
      = countIn t (prev.map RBundle.spriteMat) := by
  induction prev with
  | nil => rfl
  | cons b prev ih =>
    have hchunk : countIn (Ev.disposeSpriteMat t)
        [Ev.disposeTex b.tex, Ev.disposeSpriteMat b.spriteMat]
        = if b.spriteMat = t then 1 else 0 := by
      by_cases h : b.spriteMat = t
      · simp [countIn, List.filter_cons, h]
      · simp [countIn, List.filter_cons, h]
    rw [syncDisposeTrace, List.flatMap_cons, countIn_append, hchunk]
    rw [syncDisposeTrace] at ih
    rw [ih, List.map_cons, countIn_cons]

/-- C5: During a sync, no geometry-disposal and no pool-material
(`MeshPhongMaterial`) disposal event is ever emitted — the shared pool
geometry and the per-status pool materials survive every sync while
bundles reference them, and they *are* disposed at full engine teardown;
a removed bundle's uniquely-owned label texture and label
`SpriteMaterial` are each disposed exactly once at removal. -/
theorem c5_pool_preserved_label_disposed (prev : List RBundle) :
    (∀ g : Nat, countIn (Ev.disposeGeom g) (syncDisposeTrace prev) = 0)
    ∧ (∀ m : Nat, countIn (Ev.disposePhongMat m) (syncDisposeTrace prev) = 0)
    ∧ ((prev.map RBundle.tex).Nodup →
        ∀ b ∈ prev, countIn (Ev.disposeTex b.tex) (syncDisposeTrace prev) = 1)
    ∧ ((prev.map RBundle.spriteMat).Nodup →
        ∀ b ∈ prev,
          countIn (Ev.disposeSpriteMat b.spriteMat) (syncDisposeTrace prev) = 1)
    ∧ (∀ s : EngineState,
        0 < countIn (Ev.disposeGeom s.sharedGeo) (teardownTrace s)
        ∧ ∀ m ∈ s.poolMats,
            0 < countIn (Ev.disposePhongMat m) (teardownTrace s)) := by
  refine ⟨?_, ?_, ?_, ?_, ?_⟩
  · intro g
    apply countIn_eq_zero_of_not_mem
    intro hmem
    rcases List.mem_flatMap.mp hmem with ⟨b, _, hb⟩
    simp at hb
  · intro m
    apply countIn_eq_zero_of_not_mem
    intro hmem
    rcases List.mem_flatMap.mp hmem with ⟨b, _, hb⟩
    simp at hb
  · intro hnodup b hb
    rw [syncTrace_tex_count]
    exact countIn_eq_one_of_nodup hnodup (List.mem_map.mpr ⟨b, hb, rfl⟩)
  · intro hnodup b hb
    rw [syncTrace_spriteMat_count]
    exact countIn_eq_one_of_nodup hnodup (List.mem_map.mpr ⟨b, hb, rfl⟩)
  · intro s
    constructor
    · exact (countIn_pos_iff _ _).mpr (mem_teardown_sharedGeo s)
    · intro m hm
      exact (countIn_pos_iff _ _).mpr (mem_teardown_poolMat hm)

/-- C2 witness: The amended teardown theorem evaluated on the concrete
one-device engine state. -/
theorem c2_teardown_order_and_disposal_witness :
    0 < countIn (Ev.disposeTex 20) (teardownTrace engineOneDevice)
    ∧ countIn (Ev.disposeGeom 0) (teardownTrace engineOneDevice)
        = engineOneDevice.bundles.length + 1 :=
  ⟨((c2_teardown_order_and_disposal engineOneDevice).2.2.2.1
      { deviceId := "d1", phongMat := 10, tex := 20, spriteMat := 21 }
      (by decide)).1,
   (c2_teardown_order_and_disposal engineOneDevice).2.2.2.2.2.2.2 rfl⟩

/-- C5 witness: The sync-removal trace for a concrete one-bundle
registry: no geometry disposal, and the label texture disposed exactly
once. -/
theorem c5_pool_preserved_label_disposed_witness :
    countIn (Ev.disposeGeom 0)
      (syncDisposeTrace
        [{ deviceId := "d1", phongMat := 10, tex := 20, spriteMat := 21 }]) = 0
    ∧ countIn (Ev.disposeTex 20)
      (syncDisposeTrace
        [{ deviceId := "d1", phongMat := 10, tex := 20, spriteMat := 21 }]) = 1 :=
  ⟨(c5_pool_preserved_label_disposed
      [{ deviceId := "d1", phongMat := 10, tex := 20, spriteMat := 21 }]).1 0,
   (c5_pool_preserved_label_disposed
      [{ deviceId := "d1", phongMat := 10, tex := 20, spriteMat := 21 }]).2.2.1
      (by decide)
      { deviceId := "d1", phongMat := 10, tex := 20, spriteMat := 21 }
      (by decide)⟩

/-! ## C3: connection batch rebuild -/

theorem resolveConn_fst {devs : List Device} {c : Conn}
    {x : Conn × Device × Device} (h : resolveConn devs c = some x) :
    x.1 = c := by
  unfold resolveConn at h
  cases hf : devs.find? (fun d => decide (d.id = c.fromId)) with
  | none => rw [hf] at h; simp at h
  | some f =>
    cases ht : devs.find? (fun d => decide (d.id = c.toId)) with
    | none => rw [hf, ht] at h; simp at h
    | some t =>
      rw [hf, ht] at h
      cases h
      rfl

/-- The rebuild drops exactly the connections with a dangling endpoint:
projecting the valid list back to its connections gives the filter of the
input by "both endpoint lookups succeed", in order. -/
theorem validConnections_map_fst (conns : List Conn) (devs : List Device) :
    (validConnections conns devs).map Prod.fst
      = conns.filter (fun c =>
          (devs.find? (fun d => decide (d.id = c.fromId))).isSome
          && (devs.find? (fun d => decide (d.id = c.toId))).isSome) := by
  induction conns with
  | nil => rfl
  | cons c cs ih =>
    unfold validConnections at ih ⊢
    rw [List.map_cons, List.filter_cons]
    cases hf : devs.find? (fun d => decide (d.id = c.fromId)) with
    | none =>
      have hres : resolveConn devs c = none := by
        unfold resolveConn
        rw [hf]
      rw [hres, List.reduceOption_cons_of_none, ih]
      simp [hf]
    | some f =>
      cases ht : devs.find? (fun d => decide (d.id = c.toId)) with
      | none =>
        have hres : resolveConn devs c = none := by
          unfold resolveConn
          rw [hf, ht]
        rw [hres, List.reduceOption_cons_of_none, ih]
        simp [hf, ht]
      | some t =>
        have hres : resolveConn devs c = some (c, f, t) := by
          unfold resolveConn
          rw [hf, ht]
        rw [hres, List.reduceOption_cons_of_some, List.map_cons, ih]
        simp [hf, ht]

theorem connPositions_length (v : List (Conn × Device × Device)) :
    (connPositions v).length = 6 * v.length := by
  induction v with
  | nil => rfl
  | cons x v ih =>
    rw [connPositions, List.flatMap_cons]
    rw [connPositions] at ih
    simp only [List.length_append, ih, List.length_cons, List.length_nil]
    omega

theorem connColors_length (v : List (Conn × Device × Device)) :
    (connColors v).length = 2 * v.length := by
  induction v with
  | nil => rfl
  | cons x v ih =>
    rw [connColors, List.flatMap_cons]
    rw [connColors] at ih
    simp only [List.length_append, ih, List.length_cons, List.length_nil]
    omega

/-- Indexing into a `flatMap` whose chunks all have length `k`. -/
theorem flatMap_chunk_getElem {α β : Type} (f : α → List β) (k : Nat)
    (hk : ∀ a, (f a).length = k) (l : List α) (i j : Nat) (hj : j < k) :
    (l.flatMap f)[k * i + j]? = (l[i]?).bind (fun a => (f a)[j]?) := by
  induction l generalizing i with
  | nil => simp
  | cons a l ih =>
    rw [List.flatMap_cons]
    cases i with
    | zero =>
      have hlt : k * 0 + j < (f a).length := by
        rw [hk]
        simpa using hj
      rw [List.getElem?_append_left hlt]
      simp
    | succ i =>
      have hge : (f a).length ≤ k * (i + 1) + j := by
        rw [hk]
        have : k * (i + 1) + j = k + (k * i + j) := by ring
        omega
      rw [List.getElem?_append_right hge]
      have harith : k * (i + 1) + j - (f a).length = k * i + j := by
        rw [hk]
        have : k * (i + 1) = k * i + k := by ring
        omega
      rw [harith, ih]
      simp

theorem clampQ_mono {a b lo hi : ℚ} (h : a ≤ b) :
    clampQ a lo hi ≤ clampQ b lo hi :=
  max_le_max le_rfl (min_le_min le_rfl h)

theorem clampQ_mem {x : ℚ} : 0 ≤ clampQ x 0 1 ∧ clampQ x 0 1 ≤ 1 := by
  constructor
  · exact le_max_left 0 (min 1 x)
  · exact max_le (by norm_num) (min_le_left 1 x)

/-- C3: `rebuild` silently drops exactly the connections with a
dangling endpoint; for the `N` surviving connections the position buffer
has `6 × N` floats (the two 3D endpoints of edge `i` at offsets
`6 i … 6 i + 5`) and the colour buffer assigns both vertices `2 i` and
`2 i + 1` the edge's strength-derived colour: a fixed hue (`0.5`) at full
saturation whose lightness is `lerp 0.3 0.7` of the strength clamped to
`[0, 1]` — monotone in strength, `0.3` at clamped strength `0`, `0.7` at
`1`.  The previously installed batch geometry and material are disposed
before the new batch is installed, and when `N = 0` no batch object is
installed. -/
theorem c3_rebuild_batch (conns : List Conn) (devs : List Device) :
    ((validConnections conns devs).map Prod.fst
      = conns.filter (fun c =>
          (devs.find? (fun d => decide (d.id = c.fromId))).isSome
          && (devs.find? (fun d => decide (d.id = c.toId))).isSome))
    ∧ (connPositions (validConnections conns devs)).length
        = 6 * (validConnections conns devs).length
    ∧ (connColors (validConnections conns devs)).length
        = 2 * (validConnections conns devs).length
    ∧ (∀ i, ∀ hi : i < (validConnections conns devs).length,
        (connPositions (validConnections conns devs))[6 * i]?
            = some (((validConnections conns devs).get ⟨i, hi⟩).2.1.posX)
        ∧ (connPositions (validConnections conns devs))[6 * i + 1]?
            = some (((validConnections conns devs).get ⟨i, hi⟩).2.1.posY)
        ∧ (connPositions (validConnections conns devs))[6 * i + 2]?
            = some (((validConnections conns devs).get ⟨i, hi⟩).2.1.posZ)
        ∧ (connPositions (validConnections conns devs))[6 * i + 3]?
            = some (((validConnections conns devs).get ⟨i, hi⟩).2.2.posX)
        ∧ (connPositions (validConnections conns devs))[6 * i + 4]?
            = some (((validConnections conns devs).get ⟨i, hi⟩).2.2.posY)
        ∧ (connPositions (validConnections conns devs))[6 * i + 5]?
            = some (((validConnections conns devs).get ⟨i, hi⟩).2.2.posZ)
        ∧ (connColors (validConnections conns devs))[2 * i]?
            = some (connColorHSL (((validConnections conns devs).get ⟨i, hi⟩).1))
        ∧ (connColors (validConnections conns devs))[2 * i + 1]?
            = some (connColorHSL (((validConnections conns devs).get ⟨i, hi⟩).1)))
    ∧ (∀ c : Conn,
        (connColorHSL c).1 = 1 / 2
        ∧ (connColorHSL c).2.1 = 1
        ∧ 3 / 10 ≤ (connColorHSL c).2.2
        ∧ (connColorHSL c).2.2 ≤ 7 / 10
        ∧ (c.strength ≤ 0 → (connColorHSL c).2.2 = 3 / 10)
        ∧ (1 ≤ c.strength → (connColorHSL c).2.2 = 7 / 10))
    ∧ (∀ c c' : Conn, c.strength ≤ c'.strength →
        (connColorHSL c).2.2 ≤ (connColorHSL c').2.2)
    ∧ (∀ pg pm g m,
        (rebuildConn (some (pg, pm)) conns devs g m).2
          = [Ev.disposeGeom pg, Ev.disposeLineMat pm]
            ++ (if 0 < (validConnections conns devs).length
                then [Ev.addBatch g m] else []))
    ∧ (∀ prevBatch g m, (validConnections conns devs).length = 0 →
        (rebuildConn prevBatch conns devs g m).1 = none)
    ∧ (∀ prevBatch g m, 0 < (validConnections conns devs).length →
        (rebuildConn prevBatch conns devs g m).1 = some (g, m)) := by
  refine ⟨validConnections_map_fst conns devs,
    connPositions_length _, connColors_length _, ?_, ?_, ?_, ?_, ?_, ?_⟩
  · intro i hi
    have hch6 : ∀ x : Conn × Device × Device,
        ([x.2.1.posX, x.2.1.posY, x.2.1.posZ,
          x.2.2.posX, x.2.2.posY, x.2.2.posZ] : List ℚ).length = 6 := by
      intro x
      rfl
    have hch2 : ∀ x : Conn × Device × Device,
        ([connColorHSL x.1, connColorHSL x.1] : List (ℚ × ℚ × ℚ)).length = 2 := by
      intro x
      rfl
    have hget : (validConnections conns devs)[i]?
        = some ((validConnections conns devs).get ⟨i, hi⟩) :=
      List.getElem?_eq_getElem hi
    refine ⟨?_, ?_, ?_, ?_, ?_, ?_, ?_, ?_⟩
    · have h := flatMap_chunk_getElem _ 6 hch6 (validConnections conns devs) i 0
        (by norm_num)
      rw [Nat.add_zero] at h
      rw [connPositions, h, hget]
      rfl
    · have h := flatMap_chunk_getElem _ 6 hch6 (validConnections conns devs) i 1
        (by norm_num)
      rw [connPositions, h, hget]
      rfl
    · have h := flatMap_chunk_getElem _ 6 hch6 (validConnections conns devs) i 2
        (by norm_num)
      rw [connPositions, h, hget]
      rfl
    · have h := flatMap_chunk_getElem _ 6 hch6 (validConnections conns devs) i 3
        (by norm_num)
      rw [connPositions, h, hget]
      rfl
    · have h := flatMap_chunk_getElem _ 6 hch6 (validConnections conns devs) i 4
        (by norm_num)
      rw [connPositions, h, hget]
      rfl
    · have h := flatMap_chunk_getElem _ 6 hch6 (validConnections conns devs) i 5
        (by norm_num)
      rw [connPositions, h, hget]
      rfl
    · have h := flatMap_chunk_getElem _ 2 hch2 (validConnections conns devs) i 0
        (by norm_num)
      rw [Nat.add_zero] at h
      rw [connColors, h, hget]
      rfl
    · have h := flatMap_chunk_getElem _ 2 hch2 (validConnections conns devs) i 1
        (by norm_num)
      rw [connColors, h, hget]
      rfl
  · intro c
    have hmem := @clampQ_mem c.strength
    refine ⟨rfl, rfl, ?_, ?_, ?_, ?_⟩
    · show (3 : ℚ) / 10 ≤ lerpQ (3 / 10) (7 / 10) (clampQ c.strength 0 1)
      unfold lerpQ
      nlinarith [hmem.1, hmem.2]
    · show lerpQ (3 / 10) (7 / 10) (clampQ c.strength 0 1) ≤ 7 / 10
      unfold lerpQ
      nlinarith [hmem.1, hmem.2]
    · intro hs
      show lerpQ (3 / 10) (7 / 10) (clampQ c.strength 0 1) = 3 / 10
      have : clampQ c.strength 0 1 = 0 := by
        unfold clampQ
        rw [max_eq_left (le_trans (min_le_right 1 c.strength) hs)]
      rw [this]
      unfold lerpQ
      ring
    · intro hs
      show lerpQ (3 / 10) (7 / 10) (clampQ c.strength 0 1) = 7 / 10
      have : clampQ c.strength 0 1 = 1 := by
        unfold clampQ
        rw [min_eq_left hs, max_eq_right]
        norm_num
      rw [this]
      unfold lerpQ
      ring
  · intro c c' hs
    show lerpQ (3 / 10) (7 / 10) (clampQ c.strength 0 1)
      ≤ lerpQ (3 / 10) (7 / 10) (clampQ c'.strength 0 1)
    have hc := @clampQ_mono c.strength c'.strength 0 1 hs
    unfold lerpQ
    nlinarith [hc]
  · intro pg pm g m
    unfold rebuildConn
    by_cases h : 0 < (validConnections conns devs).length
    · rw [if_pos h, if_pos h]
    · rw [if_neg h, if_neg h]
      simp
  · intro prevBatch g m h0
    unfold rebuildConn
    rw [if_neg (by omega)]
  · intro prevBatch g m hpos
    unfold rebuildConn
    rw [if_pos hpos]

/-- C3 witness: The rebuild theorem evaluated on a concrete topology:
two devices, one valid edge and one dangling edge — the surviving batch
has one edge, its first position float is the from-device's `x`, the
colour is monotone between the two strengths, and the previous batch
`(7, 8)` is disposed before the fresh batch `(9, 10)` is installed. -/
theorem c3_rebuild_batch_witness :
    (connPositions (validConnections [connGood, connDangling] [devA, devB]))[6 * 0]?
      = some (((validConnections [connGood, connDangling] [devA, devB]).get
          ⟨0, by decide⟩).2.1.posX)
    ∧ (connColorHSL connGood).2.2 ≤ (connColorHSL connDangling).2.2
    ∧ (rebuildConn (some (7, 8)) [connGood, connDangling] [devA, devB] 9 10).2
        = [Ev.disposeGeom 7, Ev.disposeLineMat 8]
          ++ (if 0 < (validConnections [connGood, connDangling] [devA, devB]).length
              then [Ev.addBatch 9 10] else []) := by
  refine ⟨?_, ?_, ?_⟩
  · exact ((c3_rebuild_batch [connGood, connDangling] [devA, devB]).2.2.2.1 0
      (by decide)).1
  · exact (c3_rebuild_batch [connGood, connDangling] [devA, devB]).2.2.2.2.2.1
      connGood connDangling (by norm_num [connGood, connDangling])
  · exact (c3_rebuild_batch [connGood, connDangling] [devA, devB]).2.2.2.2.2.2.1
      7 8 9 10

/-! ## C4 / C9: selection highlighter over shared per-status materials -/

/-- The gsap override rule applied to the opacity tweens: the final target
opacity recorded for status material `k` comes from the *last* registry
bundle whose status is `k` — `1` if that bundle is the selected one,
`0.6` otherwise. -/
theorem mapGet_highlightMatOpacity (bundles : List (String × String))
    (selected : Option String) (k : String) :
    mapGet (highlightMatOpacity bundles selected) k
      = ((bundles.filter (fun b => decide (b.2 = k))).getLast?).map
          (fun b => if selected = some b.1 then 1 else 3 / 5) := by
  rw [highlightMatOpacity, mapGet_jsMapInsertAll]
  cases hg : (bundles.filter (fun b => decide (b.2 = k))).getLast? with
  | none => rfl
  | some b => rfl

/-- C4 counterexample: Two healthy devices share the per-status pool
material; selecting `d2` schedules its opacity tween to `1` *after*
`d1`'s tween to `0.6` on the very same material, so the shared material —
and with it the non-selected bundle `d1` — ends fully opaque, not dimmed
as the claim requires. -/
theorem c4_counterexample_shared_material_fully_opaque :
    mapGet (highlightMatOpacity [("d1", "healthy"), ("d2", "healthy")]
      (some "d2")) "healthy" = some 1
    ∧ (1 : ℚ) ≠ 3 / 5 := by
  constructor
  · rfl
  · norm_num

/-- C4 (amended): Only the bundle whose id matches the selected id is
animated toward the enlarged scale (`1.5`); every other bundle's scale
target is neutral (`1`).  Opacity, however, is tweened on the *shared*
per-status pool material, so the final opacity of status `k`'s material is
decided by the last registry bundle of status `k`: `1` when that bundle is
the selected one, `0.6` otherwise — a non-matching bundle that shares the
selected bundle's status material can therefore end fully opaque. -/
theorem c4_highlight_scales_and_shared_opacity
    (bundles : List (String × String)) (selected : Option String) :
    (∀ i, ∀ hi : i < bundles.length,
      ((highlightScales bundles selected)[i]? = some (3 / 2)
        ↔ selected = some ((bundles.get ⟨i, hi⟩).1))
      ∧ (¬ selected = some ((bundles.get ⟨i, hi⟩).1) →
          (highlightScales bundles selected)[i]? = some 1))
    ∧ (∀ k, mapGet (highlightMatOpacity bundles selected) k
        = ((bundles.filter (fun b => decide (b.2 = k))).getLast?).map
            (fun b => if selected = some b.1 then 1 else 3 / 5)) := by
  constructor
  · intro i hi
    have hgetm : (highlightScales bundles selected)[i]?
        = some (if selected = some ((bundles.get ⟨i, hi⟩).1) then 3 / 2 else 1) := by
      rw [highlightScales, List.getElem?_map, List.getElem?_eq_getElem hi]
      rfl
    constructor
    · rw [hgetm]
      by_cases hsel : selected = some ((bundles.get ⟨i, hi⟩).1)
      · simp [hsel]
      · rw [if_neg hsel]
        simp only [Option.some.injEq]
        constructor
        · intro h
          exact absurd h (by norm_num)
        · intro h
          exact absurd h hsel
    · intro hsel
      rw [hgetm, if_neg hsel]
  · exact mapGet_highlightMatOpacity bundles selected

/-- C4 witness: With two healthy bundles and `d2` selected, `d1`'s
scale target is neutral. -/
theorem c4_highlight_witness :
    (highlightScales [("d1", "healthy"), ("d2", "healthy")] (some "d2"))[0]?
      = some 1 :=
  ((c4_highlight_scales_and_shared_opacity
      [("d1", "healthy"), ("d2", "healthy")] (some "d2")).1 0 (by decide)).2
    (by decide)

/-- C9 counterexample: Selecting an id absent from the device set is
*not* visually inert: with one healthy bundle whose shared material still
has its creation opacity `0.8`, the highlight effect schedules an opacity
tween to `0.6` — a visible change. -/
theorem c9_counterexample_absent_id_dims_bundle :
    "ghost" ∉ mapKeys [("d1", "healthy")]
    ∧ mapGet (highlightMatOpacity [("d1", "healthy")] (some "ghost")) "healthy"
        = some (3 / 5)
    ∧ (3 / 5 : ℚ) ≠ poolMatInitialOpacity := by
  refine ⟨by decide, rfl, by norm_num [poolMatInitialOpacity]⟩

/-- C9 (amended): Selecting an id absent from the current device set
raises no exception and enlarges no bundle — every bundle's scale target
is neutral — but it is not a no-op: every status material that any live
bundle uses receives an opacity tween to the dimmed value `0.6`, which
visibly changes any bundle not already at that opacity (fresh pool
materials start at `0.8`). -/
theorem c9_absent_selection (bundles : List (String × String)) (sid : String)
    (habs : sid ∉ mapKeys bundles) :
    highlightScales bundles (some sid) = bundles.map (fun _ => (1 : ℚ))
    ∧ ∀ k ∈ bundles.map Prod.snd,
        mapGet (highlightMatOpacity bundles (some sid)) k = some (3 / 5) := by
  constructor
  · rw [highlightScales]
    apply List.map_congr_left
    intro b hb
    rw [if_neg]
    intro hsel
    have hid : sid = b.1 := by
      injection hsel
    exact habs (hid ▸ List.mem_map.mpr ⟨b, hb, rfl⟩)
  · intro k hk
    rw [mapGet_highlightMatOpacity]
    rcases List.mem_map.mp hk with ⟨b, hb, rfl⟩
    have hbf : b ∈ bundles.filter (fun x => decide (x.2 = b.2)) :=
      List.mem_filter.mpr ⟨hb, by simp⟩
    cases hg : (bundles.filter (fun x => decide (x.2 = b.2))).getLast? with
    | none =>
      rw [List.getLast?_eq_none_iff] at hg
      rw [hg] at hbf
      simp at hbf
    | some b' =>
      have hb'mem : b' ∈ bundles :=
        List.mem_of_mem_filter
          (List.mem_of_mem_getLast? (by rw [hg]; rfl))
      have hne : ¬ sid = b'.1 := by
        intro hid
        exact habs (hid ▸ List.mem_map.mpr ⟨b', hb'mem, rfl⟩)
      simp [hne]

/-- C9 witness: The amended theorem evaluated on one healthy bundle
with absent selected id `"ghost"`. -/
theorem c9_absent_selection_witness :
    highlightScales [("d1", "healthy")] (some "ghost")
      = [("d1", "healthy")].map (fun _ => (1 : ℚ))
    ∧ mapGet (highlightMatOpacity [("d1", "healthy")] (some "ghost")) "healthy"
        = some (3 / 5) :=
  ⟨(c9_absent_selection [("d1", "healthy")] "ghost" (by decide)).1,
   (c9_absent_selection [("d1", "healthy")] "ghost" (by decide)).2 "healthy"
     (by decide)⟩

/-! ## C6: click threshold and nearest-hit picking -/

theorem intersectDevices_perm (hits : List Hit) :
    List.Perm (intersectDevices hits) hits :=
  List.mergeSort_perm hits _

theorem intersectDevices_sorted (hits : List Hit) :
    (intersectDevices hits).Pairwise (fun a b => decide (a.dist ≤ b.dist)) := by
  apply List.sorted_mergeSort
  · intro a b c hab hbc
    simp only [decide_eq_true_eq] at hab hbc ⊢
    exact le_trans hab hbc
  · intro a b
    simpa [Bool.or_eq_true, decide_eq_true_eq] using le_total a.dist b.dist

/-- C6: A click whose accumulated drag distance exceeds the 5 px
threshold resets the counter to `0` and never reports a selection; a click
at or below the threshold keeps the counter, reports nothing when the ray
hits no body, and otherwise reports the device id of a nearest intersected
body. -/
theorem c6_click_threshold_nearest (dragDistance : ℚ) (hits : List Hit) :
    (5 < dragDistance → handleClick dragDistance hits = (0, none))
    ∧ (dragDistance ≤ 5 →
        (handleClick dragDistance hits).1 = dragDistance
        ∧ (hits = [] → (handleClick dragDistance hits).2 = none)
        ∧ (hits ≠ [] → ∃ h : Hit,
            (handleClick dragDistance hits).2 = some h.deviceId
            ∧ h ∈ hits ∧ ∀ h2 ∈ hits, h.dist ≤ h2.dist)) := by
  constructor
  · intro hgt
    rw [handleClick, if_pos hgt]
  · intro hle
    have hnot : ¬ 5 < dragDistance := not_lt.mpr hle
    rw [handleClick, if_neg hnot]
    refine ⟨rfl, ?_, ?_⟩
    · intro hnil
      subst hnil
      simp [intersectDevices]
    · intro hne
      have hperm := intersectDevices_perm hits
      have hsorted := intersectDevices_sorted hits
      cases hms : intersectDevices hits with
      | nil =>
        rw [hms] at hperm
        exact absurd hperm.symm.eq_nil hne
      | cons h t =>
        refine ⟨h, ?_, ?_, ?_⟩
        · rfl
        · exact hperm.subset (hms ▸ List.mem_cons_self h t)
        · intro h2 hh2
          have hh2m : h2 ∈ h :: t := by
            rw [← hms]
            exact hperm.symm.subset hh2
          rcases List.mem_cons.mp hh2m with rfl | hmem
          · exact le_rfl
          · rw [hms] at hsorted
            have := (List.pairwise_cons.mp hsorted).1 h2 hmem
            simpa using this

/-- C6 witness: A dragged click (distance `7 > 5`) resets and reports
nothing; a still click (distance `3 ≤ 5`) over two bodies reports the
nearer one. -/
theorem c6_click_threshold_nearest_witness :
    handleClick 7 [] = (0, none)
    ∧ (handleClick 3 [{ deviceId := "a", dist := 2 },
        { deviceId := "b", dist := 1 }]).1 = 3
    ∧ (∃ h : Hit,
        (handleClick 3 [{ deviceId := "a", dist := 2 },
          { deviceId := "b", dist := 1 }]).2 = some h.deviceId
        ∧ h ∈ [({ deviceId := "a", dist := 2 } : Hit),
            { deviceId := "b", dist := 1 }]
        ∧ ∀ h2 ∈ [({ deviceId := "a", dist := 2 } : Hit),
            { deviceId := "b", dist := 1 }], h.dist ≤ h2.dist) :=
  ⟨(c6_click_threshold_nearest 7 []).1 (by norm_num),
   ((c6_click_threshold_nearest 3 _).2 (by norm_num)).1,
   ((c6_click_threshold_nearest 3 _).2 (by norm_num)).2.2 (by simp)⟩

/-! ## C7: pitch clamping -/

/-- C7 counterexample: From an in-range pitch (`0`) with residual
vertical drag velocity `4`, a single post-release inertia frame pushes the
pitch to `4 > π/2`: the inertia step applies `velocityY` with no clamp, so
the claimed ±90° bound does not hold across inertia steps. -/
theorem c7_counterexample_inertia_exceeds_halfpi :
    -(Real.pi / 2) ≤ (0 : ℝ) ∧ (0 : ℝ) ≤ Real.pi / 2
    ∧ Real.pi / 2 < inertiaRotX 0 4 := by
  have hpi : (0 : ℝ) < Real.pi := Real.pi_pos
  have hlt : Real.pi < 3.15 := Real.pi_lt_d2
  refine ⟨by linarith, by linarith, ?_⟩
  rw [inertiaRotX]
  norm_num
  linarith

/-- C7 (amended): After every `pointermove` during a drag the root
group's pitch is clamped into `[-π/2, π/2]`; the per-frame inertia step
after release adds the residual vertical velocity *without* clamping and
can drive the pitch beyond `π/2` even from an in-range pitch. -/
theorem c7_pitch_clamped_on_move_not_on_inertia :
    (∀ rotX dy : ℝ,
      -(Real.pi / 2) ≤ moveRotX rotX dy ∧ moveRotX rotX dy ≤ Real.pi / 2)
    ∧ (∃ rotX velY : ℝ, -(Real.pi / 2) ≤ rotX ∧ rotX ≤ Real.pi / 2
        ∧ Real.pi / 2 < inertiaRotX rotX velY) := by
  have hpi : (0 : ℝ) < Real.pi := Real.pi_pos
  constructor
  · intro rotX dy
    rw [moveRotX, clampPitch]
    constructor
    · exact le_max_left _ _
    · apply max_le
      · linarith
      · exact min_le_left _ _
  · refine ⟨0, 4, by linarith, by linarith, ?_⟩
    have hlt : Real.pi < 3.15 := Real.pi_lt_d2
    rw [inertiaRotX]
    norm_num
    linarith

/-! ## C8: wheel zoom clamping and convergence -/

theorem onWheelDist_bounds (dist dir : ℚ) :
    MIN_DISTANCE ≤ onWheelDist dist dir ∧ onWheelDist dist dir ≤ MAX_DISTANCE := by
  rw [onWheelDist, clampQ]
  constructor
  · exact le_max_left _ _
  · apply max_le
    · norm_num [MIN_DISTANCE, MAX_DISTANCE]
    · exact min_le_left _ _

theorem zoomOutIter_closed (d : ℚ) (hd5 : 5 ≤ d) (hd120 : d ≤ 120) (n : Nat) :
    zoomOutIter d n = min 120 (d * (11 / 10) ^ n) := by
  induction n with
  | zero =>
    rw [zoomOutIter, pow_zero, mul_one, min_eq_right hd120]
  | succ n ih =>
    have hd0 : (0 : ℚ) ≤ d := by linarith
    have hqn : (1 : ℚ) ≤ (11 / 10) ^ n := one_le_pow₀ (by norm_num)
    have hx5 : (5 : ℚ) ≤ d * (11 / 10) ^ n := by nlinarith
    rw [zoomOutIter, ih, onWheelDist, clampQ, MIN_DISTANCE, MAX_DISTANCE]
    by_cases hcase : d * (11 / 10) ^ n ≤ 120
    · rw [min_eq_right hcase]
      have h1 : (5 : ℚ) ≤ min 120 (d * (11 / 10) ^ n * (1 + 1 * (1 / 10))) := by
        apply le_min
        · norm_num
        · nlinarith
      rw [max_eq_right h1]
      have h2 : d * (11 / 10) ^ n * (1 + 1 * (1 / 10))
          = d * (11 / 10) ^ (n + 1) := by
        rw [pow_succ]
        ring
      rw [h2]
    · push_neg at hcase
      rw [min_eq_left (le_of_lt hcase)]
      have h120 : (120 : ℚ) ≤ d * (11 / 10) ^ (n + 1) := by
        rw [pow_succ]
        nlinarith
      rw [min_eq_left h120]
      have h3 : min (120 : ℚ) (120 * (1 + 1 * (1 / 10))) = 120 :=
        min_eq_left (by norm_num)
      rw [h3, max_eq_right (by norm_num : (5 : ℚ) ≤ 120)]

theorem zoomInIter_closed (d : ℚ) (hd5 : 5 ≤ d) (hd120 : d ≤ 120) (n : Nat) :
    zoomInIter d n = max 5 (d * (9 / 10) ^ n) := by
  induction n with
  | zero =>
    rw [zoomInIter, pow_zero, mul_one, max_eq_right hd5]
  | succ n ih =>
    have hd0 : (0 : ℚ) ≤ d := by linarith
    have hrn1 : ((9 : ℚ) / 10) ^ n ≤ 1 := pow_le_one₀ (by norm_num) (by norm_num)
    have hrn0 : (0 : ℚ) ≤ (9 / 10) ^ n := pow_nonneg (by norm_num) n
    have hx120 : d * (9 / 10) ^ n ≤ 120 := by nlinarith
    rw [zoomInIter, ih, onWheelDist, clampQ, MIN_DISTANCE, MAX_DISTANCE]
    have hy120 : max (5 : ℚ) (d * (9 / 10) ^ n) ≤ 120 :=
      max_le (by norm_num) hx120
    have hmin : min (120 : ℚ) (max 5 (d * (9 / 10) ^ n) * (1 + -1 * (1 / 10)))
        = max 5 (d * (9 / 10) ^ n) * (1 + -1 * (1 / 10)) := by
      apply min_eq_right
      nlinarith [le_max_left (5 : ℚ) (d * (9 / 10) ^ n)]
    rw [hmin]
    by_cases hcase : d * (9 / 10) ^ n ≤ 5
    · rw [max_eq_left hcase]
      have hsmall : d * (9 / 10) ^ (n + 1) ≤ 5 := by
        rw [pow_succ]
        nlinarith
      rw [max_eq_left hsmall]
      have : (5 : ℚ) * (1 + -1 * (1 / 10)) ≤ 5 := by norm_num
      rw [max_eq_left this]
    · push_neg at hcase
      rw [max_eq_right (le_of_lt hcase)]
      have h2 : d * (9 / 10) ^ n * (1 + -1 * (1 / 10))
          = d * (9 / 10) ^ (n + 1) := by
        rw [pow_succ]
        ring
      rw [h2]

/-- C8: Every wheel event clamps the camera distance into
`[MIN_DISTANCE, MAX_DISTANCE]`; starting anywhere in range, repeated
zoom-out events never exceed `MAX_DISTANCE` and reach it after finitely
many events (staying there), and repeated zoom-in events never go below
`MIN_DISTANCE` and reach it after finitely many events (staying there). -/
theorem c8_wheel_clamp_and_convergence :
    (∀ dist dir : ℚ,
      MIN_DISTANCE ≤ onWheelDist dist dir ∧ onWheelDist dist dir ≤ MAX_DISTANCE)
    ∧ (∀ d : ℚ, MIN_DISTANCE ≤ d → d ≤ MAX_DISTANCE →
        (∀ n, MIN_DISTANCE ≤ zoomOutIter d n ∧ zoomOutIter d n ≤ MAX_DISTANCE)
        ∧ (∃ N, ∀ n, N ≤ n → zoomOutIter d n = MAX_DISTANCE)
        ∧ (∀ n, MIN_DISTANCE ≤ zoomInIter d n ∧ zoomInIter d n ≤ MAX_DISTANCE)
        ∧ (∃ N, ∀ n, N ≤ n → zoomInIter d n = MIN_DISTANCE)) := by
  constructor
  · exact onWheelDist_bounds
  · intro d hd5 hd120
    rw [MIN_DISTANCE] at hd5
    rw [MAX_DISTANCE] at hd120
    have hd0 : (0 : ℚ) ≤ d := by linarith
    refine ⟨?_, ?_, ?_, ?_⟩
    · intro n
      cases n with
      | zero =>
        constructor
        · rw [MIN_DISTANCE]
          exact hd5
        · rw [MAX_DISTANCE]
          exact hd120
      | succ n => exact onWheelDist_bounds (zoomOutIter d n) 1
    · obtain ⟨N, hN⟩ := pow_unbounded_of_one_lt (24 : ℚ)
        (by norm_num : (1 : ℚ) < 11 / 10)
      refine ⟨N, ?_⟩
      intro n hn
      have hpow : (11 / 10 : ℚ) ^ N ≤ (11 / 10) ^ n :=
        pow_le_pow_right₀ (by norm_num) hn
      have h120 : (120 : ℚ) ≤ d * (11 / 10) ^ n := by nlinarith
      rw [zoomOutIter_closed d hd5 hd120 n, MAX_DISTANCE, min_eq_left h120]
    · intro n
      cases n with
      | zero =>
        constructor
        · rw [MIN_DISTANCE]
          exact hd5
        · rw [MAX_DISTANCE]
          exact hd120
      | succ n => exact onWheelDist_bounds (zoomInIter d n) (-1)
    · obtain ⟨N, hN⟩ := exists_pow_lt_of_lt_one
        (by norm_num : (0 : ℚ) < 1 / 24) (by norm_num : (9 / 10 : ℚ) < 1)
      refine ⟨N, ?_⟩
      intro n hn
      have hpow : (9 / 10 : ℚ) ^ n ≤ (9 / 10) ^ N :=
        pow_le_pow_of_le_one (by norm_num) (by norm_num) hn
      have hsmall : d * (9 / 10) ^ n ≤ 5 := by
        have hpn : (0 : ℚ) ≤ (9 / 10) ^ n := pow_nonneg (by norm_num) n
        nlinarith
      rw [zoomInIter_closed d hd5 hd120 n, MIN_DISTANCE, max_eq_left hsmall]

/-- C8 witness: The clamp-and-convergence theorem evaluated at the
initial camera distance `√2700` rounded into range — concretely `30`. -/
theorem c8_wheel_clamp_and_convergence_witness :
    (∀ n, MIN_DISTANCE ≤ zoomOutIter 30 n ∧ zoomOutIter 30 n ≤ MAX_DISTANCE)
    ∧ (∃ N, ∀ n, N ≤ n → zoomInIter 30 n = MIN_DISTANCE) :=
  ⟨(c8_wheel_clamp_and_convergence.2 30 (by norm_num [MIN_DISTANCE])
      (by norm_num [MAX_DISTANCE])).1,
   (c8_wheel_clamp_and_convergence.2 30 (by norm_num [MIN_DISTANCE])
      (by norm_num [MAX_DISTANCE])).2.2.2⟩

/-! ## C10: malformed devices under JS runtime semantics -/

theorem syncFold_ok_of_positions (devices : List DeviceJS)
    (h : ∀ d ∈ devices, d.position.isSome) :
    ∀ init : List (String × Bundle),
      ∃ r, (devices.foldlM
        (fun m d => (mkMeshData d).map (fun b => mapSet m d.id b)) init)
          = Except.ok r := by
  induction devices with
  | nil =>
    intro init
    exact ⟨init, rfl⟩
  | cons d ds ih =>
    intro init
    have hd := h d (List.mem_cons_self d ds)
    cases hp : d.position with
    | none => rw [hp] at hd; simp at hd
    | some p =>
      have hmk : ∃ b, mkMeshData d = Except.ok b := by
        rw [mkMeshData, hp]
        exact ⟨_, rfl⟩
      obtain ⟨b, hb⟩ := hmk
      rw [List.foldlM_cons, hb]
      exact ih (fun x hx => h x (List.mem_cons_of_mem d hx)) (mapSet init d.id b)

theorem syncFold_error_of_missing_position (devices : List DeviceJS)
    (h : ∃ d ∈ devices, d.position = none) :
    ∀ init : List (String × Bundle),
      ∃ msg, (devices.foldlM
        (fun m d => (mkMeshData d).map (fun b => mapSet m d.id b)) init)
          = Except.error msg := by
  induction devices with
  | nil =>
    obtain ⟨d, hd, _⟩ := h
    simp at hd
  | cons d ds ih =>
    intro init
    cases hp : d.position with
    | none =>
      have hmk : mkMeshData d
          = Except.error "TypeError: cannot read properties of undefined" := by
        rw [mkMeshData, hp]
      rw [List.foldlM_cons, hmk]
      exact ⟨_, rfl⟩
    | some p =>
      have hmk : ∃ b, mkMeshData d = Except.ok b := by
        rw [mkMeshData, hp]
        exact ⟨_, rfl⟩
      obtain ⟨b, hb⟩ := hmk
      rw [List.foldlM_cons, hb]
      obtain ⟨d', hd', hd'none⟩ := h
      rcases List.mem_cons.mp hd' with rfl | hmem
      · rw [hp] at hd'none
        exact absurd hd'none (by simp)
      · exact ih ⟨d', hmem, hd'none⟩ (mapSet init d.id b)

/-- C10 counterexample: A device whose `position` field is missing
makes the sync effect throw a `TypeError` (`mesh.position.set(
device.position.x, …)` has no optional chaining) — it does not default to
the origin as claimed. -/
theorem c10_counterexample_missing_position_throws :
    syncJS [] [deviceNoPos]
      = Except.error "TypeError: cannot read properties of undefined" := rfl

/-- C10 (amended): An empty device list clears all bundles without
error; a device with missing `metrics` defaults to zero workload (via
`device.metrics?.workload ?? 0`) and syncs without error — indeed any
snapshot whose devices all carry a `position` syncs without error — but a
device with missing `position` is not defended: the sync effect throws
instead of defaulting to the origin. -/
theorem c10_sync_malformed_devices (prev : List (String × Bundle))
    (devices : List DeviceJS) :
    (syncJS prev [] = Except.ok [])
    ∧ ((∀ d ∈ devices, d.position.isSome) →
        ∃ r, syncJS prev devices = Except.ok r)
    ∧ (∀ d : DeviceJS, ∀ p : Pos3, d.position = some p → d.metrics = none →
        ∃ b, mkMeshData d = Except.ok b ∧ b.workload = 0
          ∧ b.posX = p.x ∧ b.posY = p.y ∧ b.posZ = p.z)
    ∧ ((∃ d ∈ devices, d.position = none) →
        ∃ msg, syncJS prev devices = Except.error msg) := by
  refine ⟨?_, ?_, ?_, ?_⟩
  · rfl
  · intro h
    exact syncFold_ok_of_positions devices h (prev.take 0)
  · intro d p hp hm
    refine ⟨{ deviceId := d.id, posX := p.x, posY := p.y, posZ := p.z
              statusKey := d.status.getD "default", workload := 0
              labelText := d.name }, ?_, rfl, rfl, rfl, rfl⟩
    rw [mkMeshData, hp, hm]
    rfl
  · intro h
    exact syncFold_error_of_missing_position devices h (prev.take 0)

/-- C10 witness: The amended theorem on concrete malformed devices:
missing metrics sync fine with zero workload; a missing position makes
the sync throw. -/
theorem c10_sync_malformed_devices_witness :
    (∃ b, mkMeshData deviceNoMetrics = Except.ok b ∧ b.workload = 0
      ∧ b.posX = 1 ∧ b.posY = 2 ∧ b.posZ = 3)
    ∧ (∃ msg, syncJS [] [deviceNoPos] = Except.error msg) :=
  ⟨(c10_sync_malformed_devices [] [deviceNoPos]).2.2.1 deviceNoMetrics
      { x := 1, y := 2, z := 3 } rfl rfl,
   (c10_sync_malformed_devices [] [deviceNoPos]).2.2.2
      ⟨deviceNoPos, by simp, rfl⟩⟩

end NetVis
